import Mathlib

/-!
Shallow embedding of `src/main.go` of jordiprats/golang-clusterautoscaler-autoconfig.

The program periodically lists AWS auto-scaling groups, filters them by a
name substring and a launch-template substring, sums the free IP addresses of
each group over the subnets of its `VPCZoneIdentifier`, buckets the group
names by that sum, renders the buckets in descending score order (optionally
followed by a catch-all block), and creates or replaces the
`cluster-autoscaler-priority-expander` ConfigMap with the rendered text.

Go nil-pointer dereferences and the panics that follow a silently discarded
error are modelled by `Option`: a `none` result of a cycle means the process
panicked at that point (no ConfigMap write happens). External collaborators
(the AWS paginator, the EC2 subnet lookup, the Kubernetes ConfigMap store)
are parameters of the embedded functions.
-/

namespace CAAutoconfig

/-- Launch-template reference carrying a nullable template name
(each Go pointer field is an `Option`). -/
structure LaunchTemplateSpecification where
  launchTemplateName : Option String
deriving DecidableEq, Repr

/-- `MixedInstancesPolicy.LaunchTemplate` of the AWS SDK: a nullable
launch-template specification. -/
structure MIPLaunchTemplate where
  launchTemplateSpecification : Option LaunchTemplateSpecification
deriving DecidableEq, Repr

/-- `autoscaling.MixedInstancesPolicy`: a nullable launch template. -/
structure MixedInstancesPolicy where
  launchTemplate : Option MIPLaunchTemplate
deriving DecidableEq, Repr

/-- `autoscaling.Group` restricted to the fields `mainLoop` reads.
`launchTemplate` is the nullable `LaunchTemplate` pointer whose
`LaunchTemplateName` is itself nullable. -/
structure Group where
  autoScalingGroupName : String
  launchTemplate : Option LaunchTemplateSpecification
  mixedInstancesPolicy : Option MixedInstancesPolicy
  vpcZoneIdentifier : String
deriving DecidableEq, Repr

/-- Failure modes of the external capacity source (`DescribeSubnets`). -/
inductive CapErr where
  | sourceUnavailable
  | notFound
deriving DecidableEq, Repr

/-- Go `strings.Contains hay needle`: `needle` occurs as a contiguous
substring of `hay` (an empty needle always matches). -/
def strContains (hay needle : String) : Bool :=
  (List.range (hay.toList.length + 1)).any fun i =>
    (hay.toList.drop i).take needle.toList.length == needle.toList

/-- Helper of `splitComma`: walks the characters, cutting at each comma.
`acc` holds the reversed characters of the current piece. -/
def splitCommaAux : List Char → List Char → List String
  | [], acc => [String.mk acc.reverse]
  | c :: cs, acc =>
    if c = ',' then String.mk acc.reverse :: splitCommaAux cs []
    else splitCommaAux cs (c :: acc)

/-- Go `strings.Split s ","`. In particular the result is never empty:
splitting the empty string yields `[""]`. -/
def splitComma (s : String) : List String :=
  splitCommaAux s.toList []

/-- Lines 90-95 of `main.go`: take the name from `asg.LaunchTemplate` when
that pointer is non-nil, otherwise dereference the chain
`MixedInstancesPolicy.LaunchTemplate.LaunchTemplateSpecification.LaunchTemplateName`.
A `none` result models the nil-pointer dereference panic of the Go code. -/
def resolveLTName (asg : Group) : Option String :=
  match asg.launchTemplate with
  | some lt => lt.launchTemplateName
  | none =>
    asg.mixedInstancesPolicy.bind fun mip =>
      mip.launchTemplate.bind fun lt =>
        lt.launchTemplateSpecification.bind fun spec =>
          spec.launchTemplateName

/-- Lines 101-107 of `main.go`: sum the available IP addresses over the
comma-split `VPCZoneIdentifier`. The Go code discards the `DescribeSubnets`
error and dereferences the response, so a failed lookup is a panic,
modelled by `none`. -/
def freeIPsOf (capSrc : String → Except CapErr Nat) (vpcZoneIdentifier : String) :
    Option Nat :=
  (splitComma vpcZoneIdentifier).foldl
    (fun acc subnetID =>
      acc.bind fun n =>
        match capSrc subnetID with
        | .ok m => some (n + m)
        | .error _ => none)
    (some 0)

/-- Lines 109-113 of `main.go`: add a name under a score key of the
`caPriorities` map, appending to the existing entry when the key is
present and creating a singleton entry otherwise. The map is modelled as
an association list whose keys are pairwise distinct by construction. -/
def tierInsert : List (Nat × List String) → Nat → String → List (Nat × List String)
  | [], k, n => [(k, [n])]
  | (k', ns) :: rest, k, n =>
    if k' = k then (k', ns ++ [n]) :: rest
    else (k', ns) :: tierInsert rest k n

/-- Lines 200-216 of `main.go`: collect, page by page, the groups whose
name contains `name`. `pages` are the pages the paginator delivered; on a
transport error the remaining pages are simply absent and the function
still returns what it collected (the error is only logged). -/
def awsSearchEC2ASGByName (pages : List (List Group)) (name : String) : List Group :=
  pages.foldl
    (fun records page =>
      records ++ page.filter fun g => strContains g.autoScalingGroupName name)
    []

/-- Lines 85-119 of `main.go`: the per-group loop. For each group the
template name is resolved (panic when absent); if it contains
`ltContains` the free-IP sum is computed (panic when a subnet lookup
fails) and the group name is inserted under that score. `m` is the
`caPriorities` accumulator; `none` means the cycle panicked. -/
def computeTiers (capSrc : String → Except CapErr Nat) (ltContains : String) :
    List Group → List (Nat × List String) → Option (List (Nat × List String))
  | [], m => some m
  | g :: gs, m =>
    match resolveLTName g with
    | none => none
    | some ltName =>
      if strContains ltName ltContains then
        match freeIPsOf capSrc g.vpcZoneIdentifier with
        | none => none
        | some s => computeTiers capSrc ltContains gs (tierInsert m s g.autoScalingGroupName)
      else computeTiers capSrc ltContains gs m

/-- `sort.Sort (sort.Reverse (sort.IntSlice keys))` of line 147: sort the
key list in descending order. -/
def sortKeysDesc (keys : List Nat) : List Nat :=
  List.insertionSort (fun a b => a ≥ b) keys

/-- Go map read `caPriorities[key]` on the association-list model. -/
def tierLookup (tiers : List (Nat × List String)) (k : Nat) : List String :=
  ((tiers.find? fun kv => kv.1 == k).map Prod.snd).getD []

/-- Lines 143-159 of `main.go`, with the key list passed in explicitly:
Go collects the map keys by ranging over the map, in an arbitrary order,
before sorting them. The rendered text is one `score:` block per sorted
key with one `  - name` line per group, and, when `catchAll` is set, a
final fixed `1:` block with the single entry `.*`. -/
def renderWithKeys (tiers : List (Nat × List String)) (keys : List Nat)
    (catchAll : Bool) : String :=
  let txt := (sortKeysDesc keys).foldl
    (fun acc k =>
      (tierLookup tiers k).foldl (fun a nm => a ++ "  - " ++ nm ++ "\n")
        (acc ++ toString k ++ ":\n"))
    ""
  if catchAll then txt ++ "1:\n  - .*\n" else txt

/-- Rendering as executed: the key list ranged over is exactly the key
list of the tier map. -/
def renderPriorities (tiers : List (Nat × List String)) (catchAll : Bool) : String :=
  renderWithKeys tiers (tiers.map Prod.fst) catchAll

/-- `metav1.ObjectMeta` restricted to the fields relevant here. -/
structure ObjectMeta where
  name : String
  namespaceField : String
  labels : List (String × String)
  annotations : List (String × String)
  resourceVersion : String
deriving DecidableEq, Repr

/-- `v1.ConfigMap`: object metadata plus the two payload maps. -/
structure ConfigMap where
  meta : ObjectMeta
  immutable : Bool
  data : List (String × String)
  binaryData : List (String × String)
deriving DecidableEq, Repr

/-- The write the reconciliation step performs against the store. -/
inductive StoreAction where
  | create (cm : ConfigMap)
  | skipCreate
  | update (cm : ConfigMap)
deriving DecidableEq, Repr

/-- Zero value of `ObjectMeta` (a freshly constructed Go struct). -/
def emptyMeta : ObjectMeta :=
  { name := "", namespaceField := "", labels := [], annotations := [], resourceVersion := "" }

/-- Lines 133-196 of `main.go`: look the ConfigMap up; when absent either
skip creation or create a fresh object holding exactly `data`; when
present, refetch it, overwrite only its `Data` field with `data`, and
write it back. -/
def reconcile (store : Option ConfigMap) (skipCMCreation : Bool)
    (cmName : String) (data : List (String × String)) : StoreAction :=
  match store with
  | none =>
    if skipCMCreation then .skipCreate
    else
      .create
        { meta := { emptyMeta with name := cmName }
          immutable := false
          data := data
          binaryData := [] }
  | some cm => .update { cm with data := data }

/-- The environment-derived settings `mainLoop` reads. -/
structure Config where
  asgContains : String
  ltContains : String
  catchAll : Bool
  skipCMCreation : Bool
deriving DecidableEq, Repr

/-- Observable outcome of one `mainLoop` cycle that did not panic. -/
structure CycleOutcome where
  prioritiesText : String
  action : StoreAction
  listErrLogged : Bool
deriving DecidableEq, Repr

/-- `mainLoop` end to end: group listing (with `listErr` recording whether
the paginator reported a transport error, which the Go code only logs),
filtering, scoring, tiering, rendering, reconciling. `none` models a
panic of the cycle, in which case no store write happens. -/
def mainLoop (cfg : Config) (pages : List (List Group)) (listErr : Bool)
    (capSrc : String → Except CapErr Nat) (store : Option ConfigMap) :
    Option CycleOutcome :=
  match computeTiers capSrc cfg.ltContains (awsSearchEC2ASGByName pages cfg.asgContains) [] with
  | none => none
  | some tiers =>
    let txt := renderPriorities tiers cfg.catchAll
    some
      { prioritiesText := txt
        action :=
          reconcile store cfg.skipCMCreation "cluster-autoscaler-priority-expander"
            [("priorities", txt)]
        listErrLogged := listErr }

/-! ### Concrete fixtures used by witnesses and counterexamples -/

/-- Group `A` of the worked example in the spec: one subnet `S1`. -/
def exA : Group :=
  { autoScalingGroupName := "A"
    launchTemplate := some { launchTemplateName := some "lt-A" }
    mixedInstancesPolicy := none
    vpcZoneIdentifier := "S1" }

/-- Group `B` of the worked example: subnets `S2` and `S3`. -/
def exB : Group :=
  { autoScalingGroupName := "B"
    launchTemplate := some { launchTemplateName := some "lt-B" }
    mixedInstancesPolicy := none
    vpcZoneIdentifier := "S2,S3" }

/-- Group `C` of the worked example: one subnet `S4`. -/
def exC : Group :=
  { autoScalingGroupName := "C"
    launchTemplate := some { launchTemplateName := some "lt-C" }
    mixedInstancesPolicy := none
    vpcZoneIdentifier := "S4" }

/-- Capacity source of the worked example:
`S1` has 5, `S2` has 5, `S3` has 3, `S4` has 10 free addresses. -/
def exCap : String → Except CapErr Nat := fun s =>
  if s = "S1" then .ok 5
  else if s = "S2" then .ok 5
  else if s = "S3" then .ok 3
  else if s = "S4" then .ok 10
  else .error .notFound

/-- A malformed group record: neither a direct launch template nor a
mixed-instances policy. -/
def exMalformed : Group :=
  { autoScalingGroupName := "bad"
    launchTemplate := none
    mixedInstancesPolicy := none
    vpcZoneIdentifier := "S1" }

/-- A group referencing a subnet `SX` unknown to `exCap`. -/
def exBadSubnet : Group :=
  { autoScalingGroupName := "D"
    launchTemplate := some { launchTemplateName := some "lt-D" }
    mixedInstancesPolicy := none
    vpcZoneIdentifier := "S1,SX" }

/-- A group with an empty `VPCZoneIdentifier` (no subnets configured). -/
def exNoSubnets : Group :=
  { autoScalingGroupName := "N"
    launchTemplate := some { launchTemplateName := some "lt-N" }
    mixedInstancesPolicy := none
    vpcZoneIdentifier := "" }

/-- A capacity source that reports 7 free addresses for the empty subnet
identifier and fails on everything else. -/
def exCapEmpty7 : String → Except CapErr Nat := fun s =>
  if s = "" then .ok 7 else .error .notFound

/-- Capacity source with a single subnet `S1` holding one free address
(used to exercise a computed tier whose score collides with the
catch-all score). -/
def exCapOne : String → Except CapErr Nat := fun s =>
  if s = "S1" then .ok 1 else .error .notFound

/-- The tier map mentions name `n` under score key `k`. -/
def mentions (tiers : List (Nat × List String)) (k : Nat) (n : String) : Prop :=
  ∃ ns, (k, ns) ∈ tiers ∧ n ∈ ns

/-- Group `g` contributes an entry under key `k`: its resolved template
passes the template filter and its free-IP sum is `k`. -/
def contributes (capSrc : String → Except CapErr Nat) (ltC : String)
    (g : Group) (k : Nat) : Prop :=
  (∃ lt, resolveLTName g = some lt ∧ strContains lt ltC = true) ∧
    freeIPsOf capSrc g.vpcZoneIdentifier = some k

/-! ### Helper lemmas about the tier map -/

theorem mentions_nil (k : Nat) (n : String) : ¬ mentions [] k n := by
  rintro ⟨ns, h, -⟩
  cases h

theorem mentions_cons {a : Nat} {bs : List String} {rest : List (Nat × List String)}
    {k : Nat} {n : String} :
    mentions ((a, bs) :: rest) k n ↔ (k = a ∧ n ∈ bs) ∨ mentions rest k n := by
  constructor
  · rintro ⟨ns, hmem, hn⟩
    rcases List.mem_cons.mp hmem with heq | hmem'
    · injection heq with h1 h2
      subst h1; subst h2
      exact Or.inl ⟨rfl, hn⟩
    · exact Or.inr ⟨ns, hmem', hn⟩
  · rintro (⟨rfl, hn⟩ | ⟨ns, hmem, hn⟩)
    · exact ⟨bs, List.mem_cons_self _ _, hn⟩
    · exact ⟨ns, List.mem_cons_of_mem _ hmem, hn⟩

theorem tierInsert_cons_eq (a : Nat) (bs : List String)
    (rest : List (Nat × List String)) (n : String) :
    tierInsert ((a, bs) :: rest) a n = (a, bs ++ [n]) :: rest := by
  simp [tierInsert]

theorem tierInsert_cons_ne {a k : Nat} (h : a ≠ k) (bs : List String)
    (rest : List (Nat × List String)) (n : String) :
    tierInsert ((a, bs) :: rest) k n = (a, bs) :: tierInsert rest k n := by
  simp [tierInsert, h]

theorem mentions_tierInsert (m : List (Nat × List String)) (k : Nat) (n : String)
    (k' : Nat) (n' : String) :
    mentions (tierInsert m k n) k' n' ↔ mentions m k' n' ∨ (k' = k ∧ n' = n) := by
  induction m with
  | nil =>
    simp only [tierInsert, mentions_cons, List.mem_singleton]
    constructor
    · rintro (⟨rfl, rfl⟩ | h)
      · exact Or.inr ⟨rfl, rfl⟩
      · exact absurd h (mentions_nil _ _)
    · rintro (h | ⟨rfl, rfl⟩)
      · exact absurd h (mentions_nil _ _)
      · exact Or.inl ⟨rfl, rfl⟩
  | cons hd rest ih =>
    obtain ⟨a, bs⟩ := hd
    by_cases hak : a = k
    · subst hak
      rw [tierInsert_cons_eq]
      simp only [mentions_cons, List.mem_append, List.mem_singleton]
      tauto
    · rw [tierInsert_cons_ne hak]
      simp only [mentions_cons, ih]
      tauto

theorem keys_tierInsert (m : List (Nat × List String)) (k : Nat) (n : String) :
    (tierInsert m k n).map Prod.fst =
      if k ∈ m.map Prod.fst then m.map Prod.fst else m.map Prod.fst ++ [k] := by
  induction m with
  | nil => simp [tierInsert]
  | cons hd rest ih =>
    obtain ⟨a, bs⟩ := hd
    by_cases hak : a = k
    · subst hak
      rw [tierInsert_cons_eq]
      simp
    · rw [tierInsert_cons_ne hak]
      by_cases hk : k ∈ rest.map Prod.fst <;>
        simp [ih, hk, Ne.symm hak]

theorem keys_nodup_tierInsert {m : List (Nat × List String)} (k : Nat) (n : String)
    (h : (m.map Prod.fst).Nodup) : ((tierInsert m k n).map Prod.fst).Nodup := by
  rw [keys_tierInsert]
  by_cases hk : k ∈ m.map Prod.fst
  · simpa [hk] using h
  · simp only [if_neg hk]
    simp [List.nodup_append, h, hk]

theorem computeTiers_mentions (capSrc : String → Except CapErr Nat) (ltC : String)
    (gs : List Group) :
    ∀ m tiers : List (Nat × List String),
      computeTiers capSrc ltC gs m = some tiers →
      ∀ (k : Nat) (n : String),
        (mentions tiers k n ↔
          mentions m k n ∨
            ∃ g, g ∈ gs ∧ g.autoScalingGroupName = n ∧ contributes capSrc ltC g k) := by
  induction gs with
  | nil =>
    intro m tiers h k n
    simp only [computeTiers, Option.some.injEq] at h
    subst h
    simp
  | cons g gs ih =>
    intro m tiers h k n
    cases hres : resolveLTName g with
    | none => simp [computeTiers, hres] at h
    | some lt =>
      simp only [computeTiers, hres] at h
      by_cases hpass : strContains lt ltC = true
      · rw [if_pos hpass] at h
        cases hfree : freeIPsOf capSrc g.vpcZoneIdentifier with
        | none => simp [hfree] at h
        | some s =>
          rw [hfree] at h
          rw [ih _ _ h k n, mentions_tierInsert]
          constructor
          · rintro ((hm | ⟨rfl, rfl⟩) | ⟨g', hg', hn, hc⟩)
            · exact Or.inl hm
            · exact Or.inr ⟨g, List.mem_cons_self _ _, rfl, ⟨lt, hres, hpass⟩, hfree⟩
            · exact Or.inr ⟨g', List.mem_cons_of_mem _ hg', hn, hc⟩
          · rintro (hm | ⟨g', hg', hn, hc⟩)
            · exact Or.inl (Or.inl hm)
            · rcases List.mem_cons.mp hg' with rfl | hg''
              · obtain ⟨-, hf⟩ := hc
                rw [hfree] at hf
                obtain rfl := Option.some.inj hf
                exact Or.inl (Or.inr ⟨rfl, hn.symm⟩)
              · exact Or.inr ⟨g', hg'', hn, hc⟩
      · rw [if_neg hpass] at h
        rw [ih _ _ h k n]
        constructor
        · rintro (hm | ⟨g', hg', hn, hc⟩)
          · exact Or.inl hm
          · exact Or.inr ⟨g', List.mem_cons_of_mem _ hg', hn, hc⟩
        · rintro (hm | ⟨g', hg', hn, hc⟩)
          · exact Or.inl hm
          · rcases List.mem_cons.mp hg' with rfl | hg''
            · obtain ⟨⟨lt', hlt', hp'⟩, -⟩ := hc
              rw [hres] at hlt'
              obtain rfl := Option.some.inj hlt'
              exact absurd hp' hpass
            · exact Or.inr ⟨g', hg'', hn, hc⟩

theorem computeTiers_keys_nodup (capSrc : String → Except CapErr Nat) (ltC : String)
    (gs : List Group) :
    ∀ m tiers : List (Nat × List String),
      computeTiers capSrc ltC gs m = some tiers →
      (m.map Prod.fst).Nodup → (tiers.map Prod.fst).Nodup := by
  induction gs with
  | nil =>
    intro m tiers h hm
    simp only [computeTiers, Option.some.injEq] at h
    subst h
    exact hm
  | cons g gs ih =>
    intro m tiers h hm
    cases hres : resolveLTName g with
    | none => simp [computeTiers, hres] at h
    | some lt =>
      simp only [computeTiers, hres] at h
      by_cases hpass : strContains lt ltC = true
      · rw [if_pos hpass] at h
        cases hfree : freeIPsOf capSrc g.vpcZoneIdentifier with
        | none => simp [hfree] at h
        | some s =>
          rw [hfree] at h
          exact ih _ _ h (keys_nodup_tierInsert _ _ hm)
      · rw [if_neg hpass] at h
        exact ih _ _ h hm

theorem filter_eq_singleton_of_unique {α : Type} (p : α → Bool) (l : List α) (a : α)
    (hnd : l.Nodup) (ha : a ∈ l) (hpa : p a = true)
    (huniq : ∀ b ∈ l, p b = true → b = a) :
    l.filter p = [a] := by
  induction l with
  | nil => cases ha
  | cons x xs ih =>
    rcases List.mem_cons.mp ha with rfl | ha'
    · rw [List.filter_cons_of_pos hpa]
      have hnil : xs.filter p = [] := by
        rw [List.filter_eq_nil_iff]
        intro b hb hpb
        exact (List.nodup_cons.mp hnd).1 (huniq b (List.mem_cons_of_mem _ hb) hpb ▸ hb)
      rw [hnil]
    · have hx : p x = false := by
        cases hpx : p x with
        | false => rfl
        | true =>
          have hxa := huniq x (List.mem_cons_self _ _) hpx
          exact absurd (hxa ▸ ha') (List.nodup_cons.mp hnd).1
      rw [List.filter_cons_of_neg (by simp [hx])]
      exact ih (List.nodup_cons.mp hnd).2 ha'
        (fun b hb hpb => huniq b (List.mem_cons_of_mem _ hb) hpb)

/-! ### Claim theorems -/

/-- C1: every group that passes the name filter and the template filter
appears in exactly one tier of the produced tier map, and that tier is
keyed by exactly the free-IP sum of the group, with no rounding. -/
theorem C1_exactly_one_tier (cfg : Config) (capSrc : String → Except CapErr Nat)
    (pages : List (List Group)) (tiers : List (Nat × List String))
    (g : Group) (lt : String) (s : Nat)
    (hrun : computeTiers capSrc cfg.ltContains
      (awsSearchEC2ASGByName pages cfg.asgContains) [] = some tiers)
    (hnodup : ((awsSearchEC2ASGByName pages cfg.asgContains).map
      Group.autoScalingGroupName).Nodup)
    (hg : g ∈ awsSearchEC2ASGByName pages cfg.asgContains)
    (hlt : resolveLTName g = some lt)
    (hpass : strContains lt cfg.ltContains = true)
    (hs : freeIPsOf capSrc g.vpcZoneIdentifier = some s) :
    (tiers.filter fun kv => decide (g.autoScalingGroupName ∈ kv.2)).map Prod.fst = [s] := by
  have hchar := computeTiers_mentions capSrc cfg.ltContains
    (awsSearchEC2ASGByName pages cfg.asgContains) [] tiers hrun
  have hknd : (tiers.map Prod.fst).Nodup :=
    computeTiers_keys_nodup capSrc cfg.ltContains
      (awsSearchEC2ASGByName pages cfg.asgContains) [] tiers hrun (by simp)
  have hmem : mentions tiers s g.autoScalingGroupName := by
    rw [hchar s g.autoScalingGroupName]
    exact Or.inr ⟨g, hg, rfl, ⟨lt, hlt, hpass⟩, hs⟩
  obtain ⟨ns, hns, hnins⟩ := hmem
  have hup : ∀ kv ∈ tiers, (decide (g.autoScalingGroupName ∈ kv.2)) = true → kv = (s, ns) := by
    rintro ⟨kb, nsb⟩ hkv hdec
    have hmemb : mentions tiers kb g.autoScalingGroupName :=
      ⟨nsb, hkv, of_decide_eq_true hdec⟩
    rw [hchar kb g.autoScalingGroupName] at hmemb
    rcases hmemb with hfalse | ⟨g', hg', hname, hcontr⟩
    · exact absurd hfalse (mentions_nil _ _)
    · obtain rfl : g' = g := List.inj_on_of_nodup_map hnodup hg' hg hname
      obtain ⟨-, hf⟩ := hcontr
      rw [hs] at hf
      obtain rfl := Option.some.inj hf
      exact List.inj_on_of_nodup_map hknd hkv hns rfl
  have hfil : tiers.filter (fun kv => decide (g.autoScalingGroupName ∈ kv.2)) = [(s, ns)] :=
    filter_eq_singleton_of_unique _ _ _ (List.Nodup.of_map _ hknd) hns
      (decide_eq_true hnins) hup
  rw [hfil]
  rfl

/-- C1 witness: in the worked example, the name of group A appears in
exactly one tier, the one keyed by its score 5. -/
theorem C1_exactly_one_tier_witness :
    (([((5 : Nat), ["A"]), (8, ["B"]), (10, ["C"])].filter
        fun kv => decide (exA.autoScalingGroupName ∈ kv.2)).map Prod.fst) = [5] :=
  C1_exactly_one_tier
    { asgContains := "", ltContains := "", catchAll := true, skipCMCreation := false }
    exCap [[exA, exB, exC]] [(5, ["A"]), (8, ["B"]), (10, ["C"])] exA "lt-A" 5
    (by decide) (by decide) (by decide) rfl (by decide) (by decide)

/-- C2: the computed tier blocks are rendered strictly descending by
score, and with the catch-all enabled a final `1: - .*` block is appended
after all computed blocks — also when a computed tier has score 1, in
which case the two blocks stay separate. -/
theorem C2_tiers_descending_catchall_last (capSrc : String → Except CapErr Nat)
    (ltC : String) (gs : List Group) (tiers : List (Nat × List String))
    (h : computeTiers capSrc ltC gs [] = some tiers) :
    (sortKeysDesc (tiers.map Prod.fst)).Sorted (· > ·) ∧
    renderPriorities tiers true = renderPriorities tiers false ++ "1:\n  - .*\n" := by
  constructor
  · have hknd : (tiers.map Prod.fst).Nodup :=
      computeTiers_keys_nodup capSrc ltC gs [] tiers h (by simp)
    have hsorted : (sortKeysDesc (tiers.map Prod.fst)).Sorted (· ≥ ·) :=
      List.sorted_insertionSort _ _
    have hnd2 : (sortKeysDesc (tiers.map Prod.fst)).Nodup :=
      ((List.perm_insertionSort _ _).nodup_iff).mpr hknd
    exact (hsorted.and hnd2).imp fun hab => lt_of_le_of_ne hab.1 (Ne.symm hab.2)
  · rfl

/-- C2 witness: a computed tier with score 1 and the catch-all both
appear, the catch-all strictly after and separate. -/
theorem C2_tiers_descending_catchall_last_witness :
    (sortKeysDesc ([((1 : Nat), ["A"])].map Prod.fst)).Sorted (· > ·) ∧
    renderPriorities [(1, ["A"])] true =
      renderPriorities [(1, ["A"])] false ++ "1:\n  - .*\n" :=
  C2_tiers_descending_catchall_last exCapOne "" [exA] [(1, ["A"])] (by decide)

/-- C9: rendering is deterministic: whatever order the Go map iteration
delivers the score keys in, the sorted key sequence — and hence the
rendered text — is the same. -/
theorem C9_render_determinism (tiers : List (Nat × List String)) (ks1 ks2 : List Nat)
    (c : Bool) (h1 : ks1.Perm (tiers.map Prod.fst)) (h2 : ks2.Perm (tiers.map Prod.fst)) :
    renderWithKeys tiers ks1 c = renderWithKeys tiers ks2 c := by
  have hp : (sortKeysDesc ks1).Perm (sortKeysDesc ks2) :=
    ((List.perm_insertionSort _ ks1).trans (h1.trans h2.symm)).trans
      (List.perm_insertionSort _ ks2).symm
  have hsortEq : sortKeysDesc ks1 = sortKeysDesc ks2 :=
    List.eq_of_perm_of_sorted hp (List.sorted_insertionSort _ _)
      (List.sorted_insertionSort _ _)
  simp only [renderWithKeys, sortKeysDesc] at hsortEq ⊢
  rw [hsortEq]

/-- C9 witness: two opposite key-iteration orders render the same text. -/
theorem C9_render_determinism_witness :
    renderWithKeys [((5 : Nat), ["A"]), (8, ["B"])] [5, 8] true =
      renderWithKeys [(5, ["A"]), (8, ["B"])] [8, 5] true :=
  C9_render_determinism [(5, ["A"]), (8, ["B"])] [5, 8] [8, 5] true
    (by decide) (by decide)

/-- C8: on the three-group worked example (A with subnet S1 holding 5 free
addresses, B with S2 and S3 holding 5 and 3, C with S4 holding 10), empty
filters and catch-all enabled, the computed scores are A = 5, B = 8,
C = 10 and the rendered text is exactly the four blocks
`10: - C`, `8: - B`, `5: - A`, `1: - .*`. -/
theorem C8_worked_example :
    computeTiers exCap "" (awsSearchEC2ASGByName [[exA, exB, exC]] "") [] =
      some [(5, ["A"]), (8, ["B"]), (10, ["C"])] ∧
    renderPriorities [(5, ["A"]), (8, ["B"]), (10, ["C"])] true =
      "10:\n  - C\n8:\n  - B\n5:\n  - A\n1:\n  - .*\n" := by decide

/-- C6: reconciliation of the target artifact with a payload: when the
store reports the artifact absent and skip-creation is off, it is created
with exactly the given payload; when absent and skip-creation is on, no
write happens (only the skip is reported); when present, its payload is
fully replaced by the given payload, keeping everything else. -/
theorem C6_reconcile_cases (cm : ConfigMap) (nm : String)
    (d : List (String × String)) (skip : Bool) :
    reconcile none false nm d =
      .create
        { meta := { emptyMeta with name := nm }
          immutable := false
          data := d
          binaryData := [] } ∧
    reconcile none true nm d = .skipCreate ∧
    reconcile (some cm) skip nm d = .update { cm with data := d } :=
  ⟨rfl, rfl, rfl⟩

/-- C10: on the update path the reconciler writes back the fetched
ConfigMap with only its `data` field replaced; its metadata,
immutability flag and binary payload are written back unchanged. -/
theorem C10_update_preserves_meta (cm : ConfigMap) (skip : Bool) (nm : String)
    (d : List (String × String)) :
    reconcile (some cm) skip nm d =
      .update
        { meta := cm.meta
          immutable := cm.immutable
          data := d
          binaryData := cm.binaryData } :=
  rfl

/-- C5 (amended): a transport error of the group listing is only logged;
the cycle otherwise behaves exactly as if no error had occurred, tiering
the groups that were collected before the error and still performing the
store write. -/
theorem C5_listing_error_only_logged (cfg : Config) (pages : List (List Group))
    (capSrc : String → Except CapErr Nat) (store : Option ConfigMap) :
    mainLoop cfg pages true capSrc store =
      (mainLoop cfg pages false capSrc store).map
        fun o => { o with listErrLogged := true } := by
  unfold mainLoop
  cases computeTiers capSrc cfg.ltContains (awsSearchEC2ASGByName pages cfg.asgContains) [] <;>
    rfl

/-- C5 counterexample: with the listing reporting a transport error
(`listErr = true`), the cycle does not abort — it tiers the delivered
groups and performs a create against the absent artifact, contradicting
the claim that no tiering and no write happens in such a cycle. -/
theorem C5_counterexample :
    mainLoop
        { asgContains := "", ltContains := "", catchAll := false, skipCMCreation := false }
        [[exA]] true exCap none =
      some
        { prioritiesText := "5:\n  - A\n"
          action :=
            .create
              { meta := { emptyMeta with name := "cluster-autoscaler-priority-expander" }
                immutable := false
                data := [("priorities", "5:\n  - A\n")]
                binaryData := [] }
          listErrLogged := true } := by decide

/-- C3 (code behavior at the failing input): on a record with neither a
direct launch template nor a mixed-instances policy the resolver
dereferences a nil pointer — modelled as `none` — and the whole cycle
panics: the other groups are not evaluated and no write happens, instead
of the specified exclude-and-continue with a warning. -/
theorem C3_resolver_panics :
    resolveLTName exMalformed = none ∧
    mainLoop
        { asgContains := "", ltContains := "", catchAll := false, skipCMCreation := false }
        [[exA, exMalformed, exC]] false exCap none = none := by decide

/-- C4 (code behavior at the failing input): when a subnet lookup fails,
the Go code discards the error and dereferences the nil response —
modelled as `none` — so the whole cycle panics: the remaining groups are
not evaluated and no write happens, instead of the specified
abort-this-ASG-only policy. -/
theorem C4_failed_lookup_panics :
    exCap "SX" = .error .notFound ∧
    freeIPsOf exCap "S1,SX" = none ∧
    mainLoop
        { asgContains := "", ltContains := "", catchAll := false, skipCMCreation := false }
        [[exA, exBadSubnet, exC]] false exCap none = none :=
  ⟨rfl, by decide, by decide⟩

/-- C7 counterexample: a group with no subnets (empty `VPCZoneIdentifier`)
does not get score 0 — the comma split of the empty string is `[""]`, so
the code looks up the empty subnet identifier and uses whatever count the
source returns for it (here 7), tiering the group under 7, not 0. -/
theorem C7_counterexample :
    splitComma "" = [""] ∧
    freeIPsOf exCapEmpty7 "" = some 7 ∧
    freeIPsOf exCapEmpty7 "" ≠ some 0 ∧
    computeTiers exCapEmpty7 "" [exNoSubnets] [] = some [(7, ["N"])] := by decide

/-- C7 (amended): for a group with an empty `VPCZoneIdentifier` the split
yields the single empty identifier, one capacity lookup is performed for
it, and the group is tiered under the count that lookup returns (so under
0 only when the source reports 0 for the empty identifier). -/
theorem C7_empty_vpc_scores_lookup (capSrc : String → Except CapErr Nat)
    (g : Group) (lt ltC : String) (n : Nat)
    (hvpc : g.vpcZoneIdentifier = "") (hcap : capSrc "" = .ok n)
    (hlt : resolveLTName g = some lt) (hpass : strContains lt ltC = true) :
    freeIPsOf capSrc g.vpcZoneIdentifier = some n ∧
    computeTiers capSrc ltC [g] [] = some [(n, [g.autoScalingGroupName])] := by
  have hfree : freeIPsOf capSrc g.vpcZoneIdentifier = some n := by
    rw [hvpc]
    simp [freeIPsOf, splitComma, splitCommaAux, hcap]
  refine ⟨hfree, ?_⟩
  simp [computeTiers, hlt, hpass, hfree, tierInsert]

/-- C7 amended-claim witness: the no-subnet fixture with the source
reporting 7 for the empty identifier lands in tier 7. -/
theorem C7_empty_vpc_scores_lookup_witness :
    freeIPsOf exCapEmpty7 exNoSubnets.vpcZoneIdentifier = some 7 ∧
    computeTiers exCapEmpty7 "" [exNoSubnets] [] = some [(7, [exNoSubnets.autoScalingGroupName])] :=
  C7_empty_vpc_scores_lookup exCapEmpty7 exNoSubnets "lt-N" "" 7
    rfl rfl rfl (by decide)

end CAAutoconfig
